import Mathlib

/-!
Verification of the Alpaca777MoneyMaker trading bot against its
natural-language specification.

All floating-point values of the Python source are modelled as exact
rationals (`ℚ`); the spec's "within floating-point tolerance" clauses
become exact identities in this model.  Python lists become `List`,
dataclasses become structures, `dict` state becomes total functions with
the dict's default as the value of absent keys, and exceptions become
`Except`.
-/

set_option autoImplicit false

namespace Alpaca

/-- Python's builtin `max` on two numbers (equal to Mathlib's `max`, see
`pymax_eq`; spelled out so that closed terms reduce by `decide`). -/
def pymax (a b : ℚ) : ℚ := if a ≤ b then b else a

/-- Python's builtin `min` on two numbers (equal to Mathlib's `min`, see
`pymin_eq`). -/
def pymin (a b : ℚ) : ℚ := if a ≤ b then a else b

/-- Python's builtin `abs` (equal to Mathlib's `|·|`, see `pyabs_eq`). -/
def pyabs (a : ℚ) : ℚ := if a < 0 then -a else a

/-- OHLCV bar, from `src/domain/dto.py` (`Bar`). -/
structure Bar where
  ts : Int
  open' : ℚ
  high : ℚ
  low : ℚ
  close : ℚ
  volume : Int
  deriving DecidableEq, Repr

/-- Python's `xs[-1].close` on a bar list (`0` on the empty list, which the
call sites never pass). -/
def lastClose (bars : List Bar) : ℚ :=
  ((bars.map Bar.close).getLast?).getD 0

namespace Backtest

/-- Intermediate state of `Backtester.run`'s loop
(`src/backtest/engine.py`): the local variables `cash`, `position` and the
accumulated `curve`. -/
structure BtState where
  cash : ℚ
  position : ℚ
  curve : List ℚ
  deriving DecidableEq, Repr

/-- One iteration of the loop body of `Backtester.run`
(`src/backtest/engine.py`, lines 23-44) at loop index `i`:
`window = bars[:i]`, `price = window[-1].close`, target sizing, the
commission branches, and the equity mark appended to the curve. -/
def btStep (commission : ℚ) (signalFn : List Bar → ℚ) (bars : List Bar)
    (s : BtState) (i : ℕ) : BtState :=
  let window := bars.take i
  let price := lastClose window
  let w := signalFn window
  let targetValue := w * (s.cash + s.position * price)
  let targetQty := if price > 0 then targetValue / price else 0
  let dq := targetQty - s.position
  let tradeValue := dq * price
  let cash' :=
    if dq > 0 then s.cash - tradeValue * (1 + commission)
    else s.cash + (-dq) * price * (1 - commission)
  let position' := s.position + dq
  let equity := cash' + position' * price
  ⟨cash', position', s.curve ++ [equity]⟩

/-- Method `Backtester.run` (`src/backtest/engine.py`): folds the loop body over
`range(50, len(bars))` starting from `cash = initial_cash`, `position = 0`,
and returns the equity curve. -/
def run (commission : ℚ) (bars : List Bar) (signalFn : List Bar → ℚ)
    (initialCash : ℚ) : List ℚ :=
  ((List.range' 50 (bars.length - 50)).foldl
    (btStep commission signalFn bars) ⟨initialCash, 0, []⟩).curve

/-- The loop body as the spec describes it: identical to `btStep` except
that the execution price is written as `bars[i-1].close` instead of
`window[-1].close`. -/
def btStepSpec (commission : ℚ) (signalFn : List Bar → ℚ) (bars : List Bar)
    (s : BtState) (i : ℕ) : BtState :=
  let window := bars.take i
  let price := ((bars.get? (i - 1)).map Bar.close).getD 0
  let w := signalFn window
  let targetValue := w * (s.cash + s.position * price)
  let targetQty := if price > 0 then targetValue / price else 0
  let dq := targetQty - s.position
  let tradeValue := dq * price
  let cash' :=
    if dq > 0 then s.cash - tradeValue * (1 + commission)
    else s.cash + (-dq) * price * (1 - commission)
  let position' := s.position + dq
  let equity := cash' + position' * price
  ⟨cash', position', s.curve ++ [equity]⟩

/-- The run as the spec describes it, built from `btStepSpec`. -/
def runSpec (commission : ℚ) (bars : List Bar) (signalFn : List Bar → ℚ)
    (initialCash : ℚ) : List ℚ :=
  ((List.range' 50 (bars.length - 50)).foldl
    (btStepSpec commission signalFn bars) ⟨initialCash, 0, []⟩).curve

/-- A per-step record of the loop of `Backtester.run`: the cash and
position after the step, the execution price of the step, and the equity
value appended to the curve. -/
structure StepRec where
  cash : ℚ
  pos : ℚ
  price : ℚ
  equity : ℚ
  deriving DecidableEq, Repr

/-- The per-step record produced by one iteration of the loop body of
`Backtester.run` from state `s` at loop index `i` (the same computation as
`btStep`, keeping the price and the appended equity value). -/
def btStepRec (commission : ℚ) (signalFn : List Bar → ℚ) (bars : List Bar)
    (s : BtState) (i : ℕ) : StepRec :=
  let window := bars.take i
  let price := lastClose window
  let w := signalFn window
  let targetValue := w * (s.cash + s.position * price)
  let targetQty := if price > 0 then targetValue / price else 0
  let dq := targetQty - s.position
  let tradeValue := dq * price
  let cash' :=
    if dq > 0 then s.cash - tradeValue * (1 + commission)
    else s.cash + (-dq) * price * (1 - commission)
  let position' := s.position + dq
  ⟨cash', position', price, cash' + position' * price⟩

/-- The loop body of `Backtester.run` paired with the recording of its
per-step record. -/
def traceStep (commission : ℚ) (signalFn : List Bar → ℚ) (bars : List Bar)
    (p : BtState × List StepRec) (i : ℕ) : BtState × List StepRec :=
  (btStep commission signalFn bars p.1 i,
   p.2 ++ [btStepRec commission signalFn bars p.1 i])

/-- The list of per-step records of a whole `Backtester.run`. -/
def trace (commission : ℚ) (bars : List Bar) (signalFn : List Bar → ℚ)
    (initialCash : ℚ) : List StepRec :=
  ((List.range' 50 (bars.length - 50)).foldl
    (traceStep commission signalFn bars) (⟨initialCash, 0, []⟩, [])).2

end Backtest

namespace Risk

/-- Python's `xs[-k:]` slice on a list: the trailing `k` elements (the whole
list when `k = 0`, matching `xs[-0:] = xs[:]`, or when `k ≥ len(xs)`). -/
def lastSlice {α : Type} (l : List α) (k : ℕ) : List α :=
  if k = 0 then l else l.drop (l.length - k)

/-- Function `ema` from `src/risk/core.py` (lines 8-15): seeded with the first
element, then `e = v*k + e*(1-k)` over the rest, `k = 2/(period+1)`. -/
def ema (values : List ℚ) (period : ℕ) : ℚ :=
  match values with
  | [] => 0
  | v :: vs =>
    let k : ℚ := 2 / (period + 1)
    vs.foldl (fun e x => x * k + e * (1 - k)) v

/-- The true-range series of `atr` (`src/risk/core.py`, lines 20-23): for
each consecutive pair of bars, `max(h - l, |h - pc|, |l - pc|)`. -/
def trueRanges (bars : List Bar) : List ℚ :=
  List.zipWith
    (fun prev cur =>
      pymax (cur.high - cur.low)
        (pymax (pyabs (cur.high - prev.close)) (pyabs (cur.low - prev.close))))
    bars bars.tail

/-- Function `atr` from `src/risk/core.py` (lines 17-25): `0` with fewer than
`period + 1` bars, otherwise a simple EMA over the trailing `period` true
ranges. -/
def atr (bars : List Bar) (period : ℕ) : ℚ :=
  if bars.length < period + 1 then 0
  else ema (lastSlice (trueRanges bars) period) period

/-- Method `SimpleRisk.adjust_weight` (`src/risk/core.py`, lines 32-33):
`max(min(raw_weight, max_pct), 0.0)`. -/
def simpleAdjustWeight (maxPct rawWeight : ℚ) : ℚ :=
  pymax (pymin rawWeight maxPct) 0

/-- Constructor parameters of `AtrStopsVolRisk` (`src/risk/core.py`,
lines 43-63). -/
structure AtrCfg where
  maxPct : ℚ
  volK : ℚ
  atrP : ℕ
  regEma : ℕ
  slAtr : ℚ
  tpAtr : ℚ
  usePctStops : Bool
  slPct : ℚ
  tpPct : ℚ
  deriving DecidableEq, Repr

/-- The per-`(bot_id, symbol)` entry of `AtrStopsVolRisk._state`: the dict
`{"in_pos": ..., "entry": ...}`, whose default (inserted by `_get_state`)
is `{"in_pos": 0.0, "entry": 0.0}`. -/
structure RiskState where
  inPos : ℚ
  entry : ℚ
  deriving DecidableEq, Repr

/-- The default state that `_get_state` inserts for an unseen key. -/
def RiskState.flat : RiskState := ⟨0, 0⟩

/-- Step 1 of `AtrStopsVolRisk.adjust_weight` (`src/risk/core.py`,
lines 79-88), the regime filter: the raw weight survives only when the
window holds at least `regEma` closes, the EMA over the trailing `regEma`
closes exceeds the same EMA without the last close, and the price sits
above that EMA; otherwise the raw weight is forced to `0`. -/
def regimeRaw (cfg : AtrCfg) (closes : List ℚ) (price rawWeight : ℚ) : ℚ :=
  if cfg.regEma ≤ closes.length then
    let hist := lastSlice closes cfg.regEma
    let emaNow := ema hist cfg.regEma
    let emaPrev := if 1 < hist.length then ema hist.dropLast cfg.regEma else emaNow
    if emaNow > emaPrev ∧ price > emaNow then rawWeight else 0
  else 0

/-- Step 2 of `AtrStopsVolRisk.adjust_weight` (`src/risk/core.py`,
lines 90-96), the volatility-targeting cap: `min(max_pct, vol_k/atr_pct)`
when `atr_pct > 0`, else `max_pct`. -/
def vtCap (cfg : AtrCfg) (a price : ℚ) : ℚ :=
  let atrPct := if price > 0 then a / price else 0
  if atrPct > 0 then pymin cfg.maxPct (cfg.volK / atrPct) else cfg.maxPct

/-- The stop-loss trigger of step 3 (`src/risk/core.py`, lines 102-106). -/
def slHit (cfg : AtrCfg) (st : RiskState) (price a : ℚ) : Prop :=
  if cfg.usePctStops then price ≤ st.entry * (1 - cfg.slPct)
  else a > 0 ∧ price ≤ st.entry - cfg.slAtr * a

/-- The take-profit trigger of step 3 (`src/risk/core.py`,
lines 102-107). -/
def tpHit (cfg : AtrCfg) (st : RiskState) (price a : ℚ) : Prop :=
  if cfg.usePctStops then price ≥ st.entry * (1 + cfg.tpPct)
  else a > 0 ∧ price ≥ st.entry + cfg.tpAtr * a

instance (cfg : AtrCfg) (st : RiskState) (price a : ℚ) :
    Decidable (slHit cfg st price a) := by
  unfold slHit; infer_instance

instance (cfg : AtrCfg) (st : RiskState) (price a : ℚ) :
    Decidable (tpHit cfg st price a) := by
  unfold tpHit; infer_instance

/-- The body of `AtrStopsVolRisk.adjust_weight` (`src/risk/core.py`,
lines 72-119) acting on the one `(bot_id, symbol)` state entry it reads and
writes: returns the adjusted weight and the updated entry.  The empty-bars
early return (lines 73-74) happens before `_get_state` and is handled by
the caller `adjustWeight`. -/
def adjustWeightSt (cfg : AtrCfg) (st : RiskState) (rawWeight : ℚ)
    (bars : List Bar) : ℚ × RiskState :=
  let closes := bars.map Bar.close
  let price := closes.getLast?.getD 0
  let a := atr bars cfg.atrP
  -- steps 1-2: regime filter, then clamp to the vol-target cap
  let w1 := pymax (pymin (regimeRaw cfg closes price rawWeight) (vtCap cfg a price)) 0
  -- step 3: unconditional exit on stop-loss / take-profit
  let inPos := st.inPos > 0
  let w2 :=
    if inPos ∧ st.entry > 0 ∧ (slHit cfg st price a ∨ tpHit cfg st price a)
    then 0 else w1
  -- step 4: entry/exit state update from the final weight
  let st' :=
    if ¬inPos ∧ w2 > 0 then ⟨1, price⟩
    else if inPos ∧ w2 = 0 then ⟨0, 0⟩
    else st
  (w2, st')

/-- Method `AtrStopsVolRisk.adjust_weight` at the level of the whole `_state`
dict, modelled as a total function from keys to entries (an absent key
reads as `RiskState.flat`, exactly what `_get_state` inserts).  Empty bars
return `0.0` before the state is touched. -/
def adjustWeight (cfg : AtrCfg) (state : String × String → RiskState)
    (botId symbol : String) (rawWeight : ℚ) (bars : List Bar) :
    ℚ × (String × String → RiskState) :=
  if bars = [] then (0, state)
  else
    let p := adjustWeightSt cfg (state (botId, symbol)) rawWeight bars
    (p.1, fun k => if k = (botId, symbol) then p.2 else state k)

end Risk

namespace Strategies

/-- Consecutive differences of a list: `[b - a, c - b, ...]`. -/
def deltas (l : List ℚ) : List ℚ :=
  List.zipWith (fun a b => b - a) l l.tail

/-- Function `_rsi` from `src/strategies/ema_rsi.py` (lines 14-25).  The loop
`for i in range(-period, -1)` walks the consecutive deltas among the
trailing `period` closes (it is empty when `period = 0`, like the Python
range; in that degenerate case Python would then raise on `gains/period`,
while `ℚ` division by zero yields `0`).  `avg_loss` is floored to `1e-9`
when no losses accumulated. -/
def rsi (closes : List ℚ) (period : ℕ) : ℚ :=
  if closes.length ≤ period then 50
  else
    let ds := if period = 0 then [] else deltas (Risk.lastSlice closes period)
    let gains := (ds.map (fun d => if d ≥ 0 then d else 0)).sum
    let losses := (ds.map (fun d => if d ≥ 0 then 0 else -d)).sum
    let avgGain := gains / period
    let avgLoss := if losses > 0 then losses / period else 1 / 1000000000
    let rs := avgGain / avgLoss
    100 - 100 / (1 + rs)

/-- The RSI computation exactly as the spec's words describe it: gains and
losses summed over the trailing `period` deltas of the series (i.e. the
deltas among the trailing `period + 1` closes), each averaged by dividing
by `period`, the average loss floored to `1e-9`, and
`100 - 100/(1 + avg_gain/avg_loss)`. -/
def rsiSpec (closes : List ℚ) (period : ℕ) : ℚ :=
  if closes.length ≤ period then 50
  else
    let ds := deltas (Risk.lastSlice closes (period + 1))
    let gains := (ds.map (fun d => if d ≥ 0 then d else 0)).sum
    let losses := (ds.map (fun d => if d ≥ 0 then 0 else -d)).sum
    let avgGain := gains / period
    let avgLoss := if losses > 0 then losses / period else 1 / 1000000000
    100 - 100 / (1 + avgGain / avgLoss)

/-- The amended description of `_rsi`: same as `rsiSpec` but over the
deltas among the trailing `period` closes (that is `period - 1` deltas),
written with `max` in place of the source's branchy accumulation. -/
def rsiAmendedSpec (closes : List ℚ) (period : ℕ) : ℚ :=
  if closes.length ≤ period then 50
  else
    let ds := if period = 0 then [] else deltas (Risk.lastSlice closes period)
    let gains := (ds.map (fun d => max d 0)).sum
    let losses := (ds.map (fun d => max (-d) 0)).sum
    let avgGain := gains / period
    let avgLoss := if losses > 0 then losses / period else 1 / 1000000000
    100 - 100 / (1 + avgGain / avgLoss)

end Strategies

namespace Orchestration

/-- Constant `EPSILON` from `src/app/orchestration.py` (line 10): `1e-3`. -/
def EPSILON : ℚ := 1 / 1000

/-- Constant `MIN_QTY` from `src/app/orchestration.py` (line 11): `0.01`. -/
def MIN_QTY : ℚ := 1 / 100

/-- Constant `settings.COMMISSION_PCT` from `src/config.py` (line 21): `0.0005`. -/
def COMMISSION_PCT : ℚ := 5 / 10000

/-- Function `compute_target_qty` from `src/app/portfolio_service.py`:
`target_weight * equity / price`, or `0` when `price <= 0`. -/
def compute_target_qty (targetWeight equity price : ℚ) : ℚ :=
  let targetValue := targetWeight * equity
  if price ≤ 0 then 0 else targetValue / price

/-- Function `delta_qty` from `src/app/portfolio_service.py`. -/
def delta_qty (currentQty targetQty : ℚ) : ℚ :=
  targetQty - currentQty

/-- Structure `PortfolioState` from `src/domain/models.py`, with the positions dict
as a total function (`positions.get(symbol, 0.0)` reads absent keys
as `0`). -/
structure OrchState where
  cash : ℚ
  positions : String → ℚ
  equity : ℚ

/-- The sizing-plus-execution portion of `SingleBotOrchestrator.step`
(`src/app/orchestration.py`, lines 42-65) for one symbol at weight `w` and
price `price`: compute the target quantity from the state's equity,
suppress the trade when `abs(dq) < max(EPSILON, MIN_QTY)` (leaving the
state untouched), otherwise apply the commission-adjusted cash change, set
the position, and mark equity to market. -/
def orchStep (commission : ℚ) (symbol : String) (w price : ℚ)
    (s : OrchState) : OrchState :=
  let targetQty := compute_target_qty w s.equity price
  let currentQty := s.positions symbol
  let dq := delta_qty currentQty targetQty
  if pyabs dq < pymax EPSILON MIN_QTY then s
  else
    let cash' :=
      if dq > 0 then s.cash - pyabs dq * price * (1 + commission)
      else s.cash + pyabs dq * price * (1 - commission)
    let newQty := currentQty + dq
    ⟨cash', fun sym => if sym = symbol then newQty else s.positions sym,
      cash' + newQty * price⟩

end Orchestration

namespace RL

/-- Structure `EnvConfig` from `src/backend/rl/environment/basic_env.py`
(lines 8-12). -/
structure EnvConfig where
  costsBp : ℚ
  actionSet : List ℚ
  maxDrawdown : ℚ
  deriving DecidableEq, Repr

/-- The mutable state of `TradingEnv` (`basic_env.py`, lines 67-72). -/
structure TradingEnv where
  t : ℕ
  position : ℚ
  equity : ℚ
  equityPeak : ℚ
  done : Bool
  deriving DecidableEq, Repr

/-- The precomputed bar returns `self._ret` (`basic_env.py`, lines 62-65):
`ret[0] = 0` and `ret[i] = close[i]/close[i-1] - 1` for `0 < i < n`. -/
def retAt (close : List ℚ) (i : ℕ) : ℚ :=
  if i = 0 then 0
  else if i < close.length then close.getD i 0 / close.getD (i - 1) 0 - 1
  else 0

/-- Method `TradingEnv.step` (`basic_env.py`, lines 94-121), with the price series
`close` standing for `self._close` (so `n_steps = close.length`) and the
observation vectors elided (every claim is about reward, `done` and the
numeric state).  A step on a done env raises; an out-of-range action index
raises (`self.cfg.action_set[action_idx]`); otherwise the result is the
new state, the reward, and the `done` flag of the return tuple. -/
def step (cfg : EnvConfig) (close : List ℚ) (e : TradingEnv)
    (actionIdx : ℕ) : Except String (TradingEnv × ℚ × Bool) :=
  if e.done then .error "Step called on done env"
  else
    match cfg.actionSet.get? actionIdx with
    | none => .error "action index out of range"
    | some targetPos =>
      let cost :=
        if targetPos ≠ e.position then
          pyabs (targetPos - e.position) * (cfg.costsBp / 10000)
        else 0
      let tNext := e.t + 1
      if close.length ≤ tNext then
        .ok (⟨e.t, e.position, e.equity, e.equityPeak, true⟩, 0, true)
      else
        let reward := e.position * retAt close tNext - cost
        let eq' := e.equity * (1 + reward)
        let peak' := pymax e.equityPeak eq'
        let dd := eq' / (peak' + 1 / 1000000000000) - 1
        if dd ≤ -(pyabs cfg.maxDrawdown) then
          .ok (⟨e.t, targetPos, eq', peak', true⟩, reward, true)
        else
          let done' := decide (close.length - 1 ≤ tNext)
          .ok (⟨tNext, targetPos, eq', peak', done'⟩, reward, done')

end RL

/-! Concrete inputs used by the counterexamples and the witnesses. -/

/-- A sample bar with close `8` (high `10`, low `5`). -/
def b0 : Bar := ⟨0, 0, 10, 5, 8, 0⟩

/-- A sample bar with close `8` (high `9`, low `7`); after `b0` its true
range is `2`. -/
def b1 : Bar := ⟨1, 0, 9, 7, 8, 0⟩

/-- A sample bar with close `5` (high `10`, low `5`). -/
def bA : Bar := ⟨0, 0, 10, 5, 5, 0⟩

/-- A sample bar with close `8` (high `9`, low `7`); after `bA` its true
range is `4`, and the closes `5, 8` rise. -/
def bB : Bar := ⟨1, 0, 9, 7, 8, 0⟩

/-- An `AtrStopsVolRisk` configuration with `max_position_pct = 1/5`,
`atr_period = 1` and ATR-multiple stops. -/
def riskCfgW : Risk.AtrCfg := ⟨1/5, 1/50, 1, 100, 2, 3, false, 3/100, 6/100⟩

/-- Like `riskCfgW` but with `regime_ema = 2`, so two rising closes pass
the regime filter. -/
def riskCfgW2 : Risk.AtrCfg := ⟨1/5, 1/50, 1, 2, 2, 3, false, 3/100, 6/100⟩

/-- A risk state map that holds a position entered at price `20`
everywhere. -/
def riskHeldW : String × String → Risk.RiskState := fun _ => ⟨1, 20⟩

/-- A risk state map that is flat everywhere. -/
def riskFlatW : String × String → Risk.RiskState := fun _ => ⟨0, 0⟩

/-- A portfolio worth `1000000` in cash, with no positions: sizing a full
weight at price `1` trades `1000000` units, whose commission shifts the
marked equity by `500`. -/
def orchDriftState : Orchestration.OrchState := ⟨1000000, fun _ => 0, 1000000⟩

/-- A portfolio worth `1000` in cash with no positions. -/
def orchSmallState : Orchestration.OrchState := ⟨1000, fun _ => 0, 1000⟩

/-- Fifteen closes: one `0` then fourteen `1`.  The single nonzero delta of
the series is the earliest of its fourteen trailing deltas, which the
`_rsi` loop never reads. -/
def rsiDiffInput : List ℚ := (0 : ℚ) :: List.replicate 14 1

/-- A trading-env configuration: zero costs, actions `(0, 1)`,
`max_drawdown = 1/5`. -/
def ddCfg : RL.EnvConfig := ⟨0, [0, 1], 1/5⟩

/-- A fresh long env state (`position = 1`). -/
def ddEnvW : RL.TradingEnv := ⟨0, 1, 1, 1, false⟩

/-- Closes whose single return is `4/10^13` less deep than the `-1/5`
drawdown boundary. -/
def ddClose : List ℚ := [1, 4/5 + 4/10000000000000]

/-- Closes whose single return lands exactly on the `-1/5` drawdown
boundary. -/
def bdClose : List ℚ := [1, 4/5]

/-- An env state already terminated. -/
def doneEnvW : RL.TradingEnv := ⟨0, 0, 1, 1, true⟩

/-- A fresh flat env state. -/
def endEnvW : RL.TradingEnv := ⟨0, 0, 1, 1, false⟩

/-- A one-bar close series: any step from `t = 0` runs off its end. -/
def oneClose : List ℚ := [1]

/-! Bridges between the Python builtins and their Mathlib forms. -/

theorem pymax_eq (a b : ℚ) : pymax a b = max a b := (max_def a b).symm

theorem pymin_eq (a b : ℚ) : pymin a b = min a b := (min_def a b).symm

theorem pyabs_eq (a : ℚ) : pyabs a = |a| := by
  unfold pyabs
  split_ifs with h
  · exact (abs_of_neg h).symm
  · exact (abs_of_nonneg (le_of_not_lt h)).symm

/-! Helper lemmas about the risk module. -/

theorem clamp_bounds (x cap m : ℚ) (h0 : 0 ≤ m) (hcap : cap ≤ m) :
    0 ≤ pymax (pymin x cap) 0 ∧ pymax (pymin x cap) 0 ≤ m := by
  rw [pymax_eq, pymin_eq]
  exact ⟨le_max_right _ _, max_le ((min_le_right _ _).trans hcap) h0⟩

theorem vtCap_le (cfg : Risk.AtrCfg) (a price : ℚ) :
    Risk.vtCap cfg a price ≤ cfg.maxPct := by
  simp only [Risk.vtCap, pymin_eq]
  split_ifs <;> first | exact le_refl _ | exact min_le_left _ _

theorem adjustWeightSt_fst_bounds (cfg : Risk.AtrCfg) (st : Risk.RiskState)
    (raw : ℚ) (bars : List Bar) (hc : 0 ≤ cfg.maxPct) :
    0 ≤ (Risk.adjustWeightSt cfg st raw bars).1 ∧
    (Risk.adjustWeightSt cfg st raw bars).1 ≤ cfg.maxPct := by
  simp only [Risk.adjustWeightSt]
  split_ifs
  · exact ⟨le_refl 0, hc⟩
  · exact clamp_bounds _ _ _ hc (vtCap_le cfg _ _)

theorem adjustWeightSt_snd (cfg : Risk.AtrCfg) (st : Risk.RiskState) (raw : ℚ)
    (bars : List Bar) :
    (Risk.adjustWeightSt cfg st raw bars).2 =
      if ¬ st.inPos > 0 ∧ (Risk.adjustWeightSt cfg st raw bars).1 > 0 then
        ⟨1, lastClose bars⟩
      else if st.inPos > 0 ∧ (Risk.adjustWeightSt cfg st raw bars).1 = 0 then ⟨0, 0⟩
      else st := rfl

theorem adjustWeight_ne_nil (cfg : Risk.AtrCfg)
    (state : String × String → Risk.RiskState)
    (botId symbol : String) (raw : ℚ) (bars : List Bar) (hbars : bars ≠ []) :
    Risk.adjustWeight cfg state botId symbol raw bars =
      ((Risk.adjustWeightSt cfg (state (botId, symbol)) raw bars).1,
       fun k => if k = (botId, symbol) then
           (Risk.adjustWeightSt cfg (state (botId, symbol)) raw bars).2
         else state k) := by
  unfold Risk.adjustWeight
  rw [if_neg hbars]

/-- C1: for every bot id, symbol, raw weight and bar list, and for both
risk manager variants with a nonnegative `max_position_pct`, the adjusted
weight lies in `[0, max_position_pct]` — `SimpleRisk.adjust_weight` in
`[0, maxPct]`, and `AtrStopsVolRisk.adjust_weight` (from any internal
state) in `[0, cfg.maxPct]`. -/
theorem C1_adjust_weight_bounds (maxPct : ℚ) (cfg : Risk.AtrCfg)
    (state : String × String → Risk.RiskState) (botId symbol : String)
    (rawWeight : ℚ) (bars : List Bar)
    (hm : 0 ≤ maxPct) (hc : 0 ≤ cfg.maxPct) :
    (0 ≤ Risk.simpleAdjustWeight maxPct rawWeight ∧
      Risk.simpleAdjustWeight maxPct rawWeight ≤ maxPct) ∧
    (0 ≤ (Risk.adjustWeight cfg state botId symbol rawWeight bars).1 ∧
      (Risk.adjustWeight cfg state botId symbol rawWeight bars).1 ≤ cfg.maxPct) := by
  refine ⟨?_, ?_⟩
  · simp only [Risk.simpleAdjustWeight]
    exact clamp_bounds _ _ _ hm (le_refl _)
  · unfold Risk.adjustWeight
    split_ifs
    · exact ⟨le_refl 0, hc⟩
    · exact adjustWeightSt_fst_bounds cfg _ rawWeight bars hc

/-- Witness for C1 at `maxPct = 1/5`, `riskCfgW`, weight `1/2` and an
empty bar list. -/
theorem C1_adjust_weight_bounds_witness :
    (0 ≤ (1/5 : ℚ)) ∧ (0 ≤ riskCfgW.maxPct) ∧
    ((0 ≤ Risk.simpleAdjustWeight (1/5) (1/2) ∧
        Risk.simpleAdjustWeight (1/5) (1/2) ≤ 1/5) ∧
      (0 ≤ (Risk.adjustWeight riskCfgW riskHeldW "bot" "SPY" (1/2) []).1 ∧
        (Risk.adjustWeight riskCfgW riskHeldW "bot" "SPY" (1/2) []).1
          ≤ riskCfgW.maxPct)) :=
  ⟨by norm_num, by norm_num [riskCfgW],
    C1_adjust_weight_bounds (1/5) riskCfgW riskHeldW "bot" "SPY" (1/2) []
      (by norm_num) (by norm_num [riskCfgW])⟩

/-- C4: with ATR-multiple stops, an in-position state with positive entry
price, a positive ATR over the window, and a close at or below
`entry - sl_atr_mult * atr` force the adjusted weight to exactly `0`,
whatever the raw weight, the regime filter, and the rest of the
configuration. -/
theorem C4_stop_loss_forces_zero (cfg : Risk.AtrCfg)
    (state : String × String → Risk.RiskState)
    (botId symbol : String) (rawWeight : ℚ) (bars : List Bar)
    (hstops : cfg.usePctStops = false)
    (hbars : bars ≠ [])
    (hpos : (state (botId, symbol)).inPos > 0)
    (hentry : (state (botId, symbol)).entry > 0)
    (hatr : 0 < Risk.atr bars cfg.atrP)
    (hsl : lastClose bars ≤
      (state (botId, symbol)).entry - cfg.slAtr * Risk.atr bars cfg.atrP) :
    (Risk.adjustWeight cfg state botId symbol rawWeight bars).1 = 0 := by
  unfold Risk.adjustWeight
  rw [if_neg hbars]
  show (Risk.adjustWeightSt cfg (state (botId, symbol)) rawWeight bars).1 = 0
  have sl : Risk.slHit cfg (state (botId, symbol)) (lastClose bars)
      (Risk.atr bars cfg.atrP) := by
    simp only [Risk.slHit, hstops, if_false]
    exact ⟨hatr, hsl⟩
  simp only [Risk.adjustWeightSt]
  split_ifs with h
  · rfl
  · exact absurd ⟨hpos, hentry, Or.inl sl⟩ h

/-- Witness for C4: entry `20`, ATR `2` over `[b0, b1]`, close `8`, which
is below `20 - 2*2`; the adjusted weight is `0`. -/
theorem C4_stop_loss_forces_zero_witness :
    riskCfgW.usePctStops = false ∧
    (0 : ℚ) < Risk.atr [b0, b1] riskCfgW.atrP ∧
    lastClose [b0, b1] ≤
      (riskHeldW ("bot", "SPY")).entry -
        riskCfgW.slAtr * Risk.atr [b0, b1] riskCfgW.atrP ∧
    (Risk.adjustWeight riskCfgW riskHeldW "bot" "SPY" (1/2) [b0, b1]).1 = 0 :=
  ⟨rfl,
    by norm_num [Risk.atr, Risk.trueRanges, Risk.ema, Risk.lastSlice,
      pymax, pyabs, riskCfgW, b0, b1],
    by norm_num [Risk.atr, Risk.trueRanges, Risk.ema, Risk.lastSlice,
      pymax, pyabs, riskCfgW, riskHeldW, b0, b1, lastClose],
    C4_stop_loss_forces_zero riskCfgW riskHeldW "bot" "SPY" (1/2) [b0, b1]
      rfl (by simp) (by norm_num [riskHeldW]) (by norm_num [riskHeldW])
      (by norm_num [Risk.atr, Risk.trueRanges, Risk.ema, Risk.lastSlice,
        pymax, pyabs, riskCfgW, b0, b1])
      (by norm_num [Risk.atr, Risk.trueRanges, Risk.ema, Risk.lastSlice,
        pymax, pyabs, riskCfgW, riskHeldW, b0, b1, lastClose])⟩

/-- C5: on a non-empty bar list, the per-key state entry of
`AtrStopsVolRisk.adjust_weight` moves only through the two transitions
flat-to-entered (final weight positive while flat, recording the current
close as entry) and entered-to-flat (final weight zero while in position,
clearing the entry); otherwise it is unchanged, and every other key of the
state dict is untouched. -/
theorem C5_risk_state_transitions (cfg : Risk.AtrCfg)
    (state : String × String → Risk.RiskState)
    (botId symbol : String) (rawWeight : ℚ) (bars : List Bar)
    (hbars : bars ≠ []) :
    (¬ (state (botId, symbol)).inPos > 0 →
      (Risk.adjustWeight cfg state botId symbol rawWeight bars).1 > 0 →
      (Risk.adjustWeight cfg state botId symbol rawWeight bars).2 (botId, symbol) =
        ⟨1, lastClose bars⟩) ∧
    ((state (botId, symbol)).inPos > 0 →
      (Risk.adjustWeight cfg state botId symbol rawWeight bars).1 = 0 →
      (Risk.adjustWeight cfg state botId symbol rawWeight bars).2 (botId, symbol) =
        ⟨0, 0⟩) ∧
    (¬(¬ (state (botId, symbol)).inPos > 0 ∧
        (Risk.adjustWeight cfg state botId symbol rawWeight bars).1 > 0) →
      ¬((state (botId, symbol)).inPos > 0 ∧
        (Risk.adjustWeight cfg state botId symbol rawWeight bars).1 = 0) →
      (Risk.adjustWeight cfg state botId symbol rawWeight bars).2 (botId, symbol) =
        state (botId, symbol)) ∧
    (∀ k, k ≠ (botId, symbol) →
      (Risk.adjustWeight cfg state botId symbol rawWeight bars).2 k = state k) := by
  rw [adjustWeight_ne_nil cfg state botId symbol rawWeight bars hbars]
  dsimp only
  rw [if_pos rfl, adjustWeightSt_snd]
  refine ⟨?_, ?_, ?_, ?_⟩
  · intro hflat hw
    rw [if_pos ⟨hflat, hw⟩]
  · intro hpos hw0
    rw [if_neg (fun hcon => hcon.1 hpos), if_pos ⟨hpos, hw0⟩]
  · intro h1 h2
    rw [if_neg h1, if_neg h2]
  · intro k hk
    exact if_neg hk

/-- Witness for C5: with `riskCfgW2` on the rising window `[bA, bB]`, a
flat state and raw weight `1/2`, the final weight is positive, so the key
transitions to in-position with entry `8`, while another key is
untouched. -/
theorem C5_risk_state_transitions_witness :
    (([bA, bB] : List Bar) ≠ []) ∧
    (Risk.adjustWeight riskCfgW2 riskFlatW "bot" "SPY" (1/2) [bA, bB]).2
        ("bot", "SPY") = ⟨1, lastClose [bA, bB]⟩ ∧
    (Risk.adjustWeight riskCfgW2 riskFlatW "bot" "SPY" (1/2) [bA, bB]).2
        ("other", "QQQ") = riskFlatW ("other", "QQQ") :=
  ⟨by simp,
    (C5_risk_state_transitions riskCfgW2 riskFlatW "bot" "SPY" (1/2) [bA, bB]
        (by simp)).1
      (by norm_num [riskFlatW])
      (by
        rw [adjustWeight_ne_nil riskCfgW2 riskFlatW "bot" "SPY" (1/2) [bA, bB]
          (by simp)]
        norm_num [Risk.adjustWeightSt, Risk.regimeRaw,
          Risk.vtCap, Risk.atr, Risk.trueRanges, Risk.ema, Risk.lastSlice,
          Risk.slHit, Risk.tpHit, pymax, pymin, pyabs, riskFlatW, riskCfgW2,
          bA, bB]),
    (C5_risk_state_transitions riskCfgW2 riskFlatW "bot" "SPY" (1/2) [bA, bB]
        (by simp)).2.2.2 ("other", "QQQ") (by simp)⟩

/-! Helper lemmas about lists and the backtest engine. -/

theorem getLast?_take_eq {α : Type} (l : List α) (i : ℕ) (h1 : 1 ≤ i)
    (h2 : i ≤ l.length) : (l.take i).getLast? = l.get? (i - 1) := by
  rw [List.getLast?_eq_getElem?, List.get?_eq_getElem?, List.length_take,
    Nat.min_eq_left h2, List.getElem?_take, if_pos (by omega : i - 1 < i)]

theorem lastClose_take (bars : List Bar) (i : ℕ) (h1 : 1 ≤ i)
    (h2 : i ≤ bars.length) :
    lastClose (bars.take i) = ((bars.get? (i - 1)).map Bar.close).getD 0 := by
  unfold lastClose
  rw [List.map_take, getLast?_take_eq _ i h1 (by simpa using h2),
    List.get?_eq_getElem?, List.get?_eq_getElem?, List.getElem?_map]

theorem btStep_eq_spec (c : ℚ) (sig : List Bar → ℚ) (bars : List Bar)
    (s : Backtest.BtState) (i : ℕ) (h1 : 1 ≤ i) (h2 : i ≤ bars.length) :
    Backtest.btStep c sig bars s i = Backtest.btStepSpec c sig bars s i := by
  simp only [Backtest.btStep, Backtest.btStepSpec, lastClose_take bars i h1 h2]

theorem foldl_curve_length (c : ℚ) (sig : List Bar → ℚ) (bars : List Bar)
    (l : List ℕ) (s : Backtest.BtState) :
    ((l.foldl (Backtest.btStep c sig bars) s).curve).length
      = s.curve.length + l.length := by
  induction l generalizing s with
  | nil => simp
  | cons i t ih =>
    rw [List.foldl_cons, ih]
    show (Backtest.btStep c sig bars s i).curve.length + t.length = _
    rw [show (Backtest.btStep c sig bars s i).curve = s.curve ++ [_] from rfl]
    simp
    omega

theorem btStep_curve_eq (c : ℚ) (sig : List Bar → ℚ) (bars : List Bar)
    (s : Backtest.BtState) (i : ℕ) :
    (Backtest.btStep c sig bars s i).curve
      = s.curve ++ [(Backtest.btStepRec c sig bars s i).equity] := rfl

theorem foldl_trace_curve (c : ℚ) (sig : List Bar → ℚ) (bars : List Bar)
    (l : List ℕ) (s : Backtest.BtState) (rs : List Backtest.StepRec)
    (h : s.curve = rs.map Backtest.StepRec.equity) :
    (l.foldl (Backtest.btStep c sig bars) s).curve
      = ((l.foldl (Backtest.traceStep c sig bars) (s, rs)).2).map
          Backtest.StepRec.equity := by
  induction l generalizing s rs with
  | nil => simpa using h
  | cons i t ih =>
    rw [List.foldl_cons, List.foldl_cons]
    exact ih (Backtest.btStep c sig bars s i)
      (rs ++ [Backtest.btStepRec c sig bars s i])
      (by rw [btStep_curve_eq, h, List.map_append]; rfl)

theorem foldl_trace_inv (c : ℚ) (sig : List Bar → ℚ) (bars : List Bar)
    (l : List ℕ) (p : Backtest.BtState × List Backtest.StepRec)
    (h : ∀ r ∈ p.2, r.equity = r.cash + r.pos * r.price) :
    ∀ r ∈ (l.foldl (Backtest.traceStep c sig bars) p).2,
      r.equity = r.cash + r.pos * r.price := by
  induction l generalizing p with
  | nil => exact h
  | cons i t ih =>
    rw [List.foldl_cons]
    refine ih _ ?_
    intro r hr
    simp only [Backtest.traceStep, List.mem_append, List.mem_singleton] at hr
    rcases hr with h1 | h2
    · exact h r h1
    · subst h2
      rfl

/-- C2: on any bar list, `Backtester.run` appends exactly one equity value
per loop index `i = 50 .. n-1` (so the curve has `n - 50` entries, with
truncated subtraction giving `max(0, n-50)`, and an entry is appended even
on a zero-delta step), and the run equals the spec-side run in which the
signal still receives the window `bars[0:i]` while the execution price is
written `bars[i-1].close` instead of `window[-1].close`. -/
theorem C2_backtester_run_iteration (c : ℚ) (bars : List Bar)
    (sig : List Bar → ℚ) (cash : ℚ) :
    (Backtest.run c bars sig cash).length = bars.length - 50 ∧
    Backtest.run c bars sig cash = Backtest.runSpec c bars sig cash := by
  constructor
  · unfold Backtest.run
    rw [foldl_curve_length]
    simp
  · unfold Backtest.run Backtest.runSpec
    congr 1
    apply List.foldl_ext
    intro s i hi
    rw [List.mem_range'] at hi
    obtain ⟨j, hj, rfl⟩ := hi
    exact btStep_eq_spec c sig bars s _ (by omega) (by omega)

/-- C3: the equity curve of `Backtester.run` is exactly the per-step
equity of its trace, and on every step of the trace (zero-delta steps
included) the appended equity equals `cash + position * price` for that
step's cash, position and execution price — exactly, hence within the
1e-9 tolerance the spec grants. -/
theorem C3_equity_identity (c : ℚ) (bars : List Bar) (sig : List Bar → ℚ)
    (cash : ℚ) :
    Backtest.run c bars sig cash
      = (Backtest.trace c bars sig cash).map Backtest.StepRec.equity ∧
    ∀ r ∈ Backtest.trace c bars sig cash,
      r.equity = r.cash + r.pos * r.price := by
  constructor
  · unfold Backtest.run Backtest.trace
    exact foldl_trace_curve c sig bars _ _ [] rfl
  · unfold Backtest.trace
    refine foldl_trace_inv c sig bars _ _ ?_
    intro r hr
    simp at hr

/-- C6 counterexample: on fifteen closes `0, 1, ..., 1` with period 14,
`_rsi` returns `0` (it reads only the thirteen deltas among the trailing
fourteen closes, all zero), while the value the claim describes — gains
and losses summed over the trailing fourteen deltas of the series — is
close to `100`, since that delta set holds the gain `1`. -/
theorem C6_rsi_counterexample :
    Strategies.rsi rsiDiffInput 14 ≠ Strategies.rsiSpec rsiDiffInput 14 := by
  norm_num [Strategies.rsi, Strategies.rsiSpec, rsiDiffInput,
    Strategies.deltas, Risk.lastSlice, List.replicate]

/-- C6 amended: `_rsi` returns `50` when `len(closes) <= period`, and
otherwise sums gains and losses over the `period - 1` deltas among the
trailing `period` closes (not the trailing `period` deltas of the series),
averages each by dividing by `period` with the average loss floored to
`1e-9`, and returns `100 - 100/(1 + avg_gain/avg_loss)`. -/
theorem C6_rsi_amended (closes : List ℚ) (period : ℕ) :
    Strategies.rsi closes period = Strategies.rsiAmendedSpec closes period := by
  unfold Strategies.rsi Strategies.rsiAmendedSpec
  have h1 : (fun d : ℚ => if d ≥ 0 then d else 0) = fun d => max d 0 := by
    funext d
    rcases le_or_lt 0 d with h | h
    · rw [if_pos h, max_eq_left h]
    · rw [if_neg (not_le.mpr h), max_eq_right h.le]
  have h2 : (fun d : ℚ => if d ≥ 0 then 0 else -d) = fun d => max (-d) 0 := by
    funext d
    rcases le_or_lt 0 d with h | h
    · rw [if_pos h, max_eq_right (by linarith)]
    · rw [if_neg (not_le.mpr h), max_eq_left (by linarith)]
  rw [h1, h2]

/-! The orchestration epsilon gate (C7). -/

/-- C7 counterexample: from a consistent portfolio of `1000000` cash at
weight `1` and price `1`, the first step buys `1000000` units; commission
lowers the marked equity by `500`, so the repeated step at the same weight
and price computes a delta of `-500` — far above `max(EPSILON, MIN_QTY)` —
and executes a sell that changes both cash and the position, refuting the
claimed idempotence for every portfolio state. -/
theorem C7_epsilon_gate_counterexample :
    (Orchestration.orchStep Orchestration.COMMISSION_PCT "AAPL" 1 1
        (Orchestration.orchStep Orchestration.COMMISSION_PCT "AAPL" 1 1
          orchDriftState)).cash ≠
      (Orchestration.orchStep Orchestration.COMMISSION_PCT "AAPL" 1 1
        orchDriftState).cash ∧
    (Orchestration.orchStep Orchestration.COMMISSION_PCT "AAPL" 1 1
        (Orchestration.orchStep Orchestration.COMMISSION_PCT "AAPL" 1 1
          orchDriftState)).positions "AAPL" ≠
      (Orchestration.orchStep Orchestration.COMMISSION_PCT "AAPL" 1 1
        orchDriftState).positions "AAPL" := by
  constructor <;>
    norm_num [Orchestration.orchStep, Orchestration.compute_target_qty,
      Orchestration.delta_qty, Orchestration.EPSILON, Orchestration.MIN_QTY,
      Orchestration.COMMISSION_PCT, orchDriftState, pyabs, pymax]

/-- C7 amended: from a mark-to-market-consistent portfolio at price
`price > 0`, the repeated sizing-plus-execution step at the same weight
and price computes a quantity delta of magnitude
`|w * commission * dq1|` (where `dq1` is the first step's delta); whenever
that magnitude is below `max(EPSILON, MIN_QTY)` the epsilon gate
suppresses it and the repeated step leaves cash, positions and equity
unchanged. -/
theorem C7_epsilon_gate_amended (commission : ℚ) (symbol : String)
    (w price : ℚ) (s : Orchestration.OrchState)
    (hp : 0 < price)
    (hcons : s.equity = s.cash + s.positions symbol * price)
    (hgate : pyabs (w * commission *
        (Orchestration.compute_target_qty w s.equity price -
          s.positions symbol)) <
      pymax Orchestration.EPSILON Orchestration.MIN_QTY) :
    Orchestration.orchStep commission symbol w price
        (Orchestration.orchStep commission symbol w price s) =
      Orchestration.orchStep commission symbol w price s := by
  have hTval : Orchestration.compute_target_qty w s.equity price
      = w * s.equity / price := by
    unfold Orchestration.compute_target_qty
    rw [if_neg (not_le.mpr hp)]
  set T := Orchestration.compute_target_qty w s.equity price with hT
  set q0 := s.positions symbol with hq0
  by_cases hg : pyabs (Orchestration.delta_qty q0 T) <
      pymax Orchestration.EPSILON Orchestration.MIN_QTY
  · have h1 : Orchestration.orchStep commission symbol w price s = s := by
      simp only [Orchestration.orchStep]
      rw [← hT, ← hq0, if_pos hg]
    rw [h1]
    exact h1
  · set s1 := Orchestration.orchStep commission symbol w price s with hs1
    have hpos1 : s1.positions symbol = T := by
      rw [hs1]
      simp only [Orchestration.orchStep]
      rw [← hT, ← hq0, if_neg hg]
      dsimp only
      rw [if_pos rfl]
      unfold Orchestration.delta_qty
      ring
    have heq1 : s1.equity
        = s.equity - commission * pyabs (Orchestration.delta_qty q0 T) * price := by
      rw [hs1]
      simp only [Orchestration.orchStep]
      rw [← hT, ← hq0, if_neg hg]
      dsimp only
      rw [hcons]
      simp only [Orchestration.delta_qty, pyabs]
      split_ifs with hd hd2 hd3
      · exact absurd hd (by linarith)
      · ring
      · ring
      · linear_combination (2 * price) * le_antisymm (not_lt.mp hd) (not_lt.mp hd3)
    have hT2 : Orchestration.compute_target_qty w s1.equity price =
        T - w * commission * pyabs (Orchestration.delta_qty q0 T) := by
      unfold Orchestration.compute_target_qty
      rw [if_neg (not_le.mpr hp), heq1, hTval]
      field_simp
      ring
    have hdq2 : Orchestration.delta_qty (s1.positions symbol)
          (Orchestration.compute_target_qty w s1.equity price) =
        -(w * commission * pyabs (Orchestration.delta_qty q0 T)) := by
      rw [Orchestration.delta_qty, hpos1, hT2]
      ring
    have hg2 : pyabs (Orchestration.delta_qty (s1.positions symbol)
          (Orchestration.compute_target_qty w s1.equity price)) <
        pymax Orchestration.EPSILON Orchestration.MIN_QTY := by
      rw [hdq2, pyabs_eq, abs_neg, abs_mul, pyabs_eq, abs_abs, ← abs_mul]
      rw [pyabs_eq] at hgate
      simpa [Orchestration.delta_qty] using hgate
    simp only [Orchestration.orchStep]
    rw [if_pos hg2]

/-- Witness for C7 amended: portfolio of `1000` cash at weight `1/5` and
price `10`; the first step buys `20` units, the second delta has magnitude
`1/5 * 0.0005 * 20 = 0.002 < 0.01` and is suppressed. -/
theorem C7_epsilon_gate_amended_witness :
    (0 < (10 : ℚ)) ∧
    orchSmallState.equity
      = orchSmallState.cash + orchSmallState.positions "X" * 10 ∧
    pyabs ((1/5) * Orchestration.COMMISSION_PCT *
        (Orchestration.compute_target_qty (1/5) orchSmallState.equity 10 -
          orchSmallState.positions "X")) <
      pymax Orchestration.EPSILON Orchestration.MIN_QTY ∧
    Orchestration.orchStep Orchestration.COMMISSION_PCT "X" (1/5) 10
        (Orchestration.orchStep Orchestration.COMMISSION_PCT "X" (1/5) 10
          orchSmallState) =
      Orchestration.orchStep Orchestration.COMMISSION_PCT "X" (1/5) 10
        orchSmallState :=
  ⟨by norm_num,
    by norm_num [orchSmallState],
    by norm_num [orchSmallState, Orchestration.compute_target_qty,
      Orchestration.COMMISSION_PCT, Orchestration.EPSILON,
      Orchestration.MIN_QTY, pyabs, pymax],
    C7_epsilon_gate_amended Orchestration.COMMISSION_PCT "X" (1/5) 10
      orchSmallState (by norm_num) (by norm_num [orchSmallState])
      (by norm_num [orchSmallState, Orchestration.compute_target_qty,
        Orchestration.COMMISSION_PCT, Orchestration.EPSILON,
        Orchestration.MIN_QTY, pyabs, pymax])⟩

/-! The trading environment (C8, C9, C10). -/

theorem step_normal (cfg : RL.EnvConfig) (close : List ℚ) (e : RL.TradingEnv)
    (actionIdx : ℕ) (target : ℚ)
    (hdone : e.done = false)
    (hact : cfg.actionSet.get? actionIdx = some target)
    (hn : e.t + 1 < close.length) :
    RL.step cfg close e actionIdx =
      (let cost := if target ≠ e.position then
          pyabs (target - e.position) * (cfg.costsBp / 10000) else 0
       let reward := e.position * RL.retAt close (e.t + 1) - cost
       let eq' := e.equity * (1 + reward)
       let peak' := pymax e.equityPeak eq'
       let dd := eq' / (peak' + 1 / 1000000000000) - 1
       if dd ≤ -(pyabs cfg.maxDrawdown) then
         .ok (⟨e.t, target, eq', peak', true⟩, reward, true)
       else
         .ok (⟨e.t + 1, target, eq', peak', decide (close.length - 1 ≤ e.t + 1)⟩,
           reward, decide (close.length - 1 ≤ e.t + 1))) := by
  unfold RL.step
  rw [hdone, if_neg (by simp : ¬(false = true)), hact]
  dsimp only
  rw [if_neg (not_le.mpr hn)]

/-- C8 counterexample: with `max_drawdown = 1/5` and a return leaving
`equity/equity_peak - 1` equal to `-1/5 + 4e-13` — strictly shallower than
the boundary — the step nevertheless terminates through the drawdown
check, because the code divides by `equity_peak + 1e-12`; so "one less
than the boundary does not set done" fails. -/
theorem C8_drawdown_counterexample :
    RL.step ddCfg ddClose ddEnvW 1 =
      .ok (⟨0, 1, 4/5 + 4/10000000000000, 1, true⟩,
        -(1/5) + 4/10000000000000, true) ∧
    (4/5 + 4/10000000000000 : ℚ) / 1 - 1 > -(1/5) := by
  constructor
  · norm_num [RL.step, RL.retAt, ddCfg, ddClose, ddEnvW, pyabs, pymax]
  · norm_num

/-- C8 amended: in a non-done state with a valid action and the next index
in range, writing `reward`, `eq'` and `peak'` for the step's reward and
post-reward equity and peak, the drawdown check compares
`eq' / (peak' + 1e-12) - 1` with `-max_drawdown`: reaching the exact
boundary `eq'/peak' - 1 = -max_drawdown` always sets `done` on that step
while still returning the reward (for `0 ≤ max_drawdown ≤ 1` and a
positive prior peak), and the step proceeds normally only when the
epsilon-adjusted drawdown stays strictly above `-max_drawdown` — a margin
narrower by about `eq' * 1e-12 / peak'^2` than the claimed
`eq'/peak' - 1 > -max_drawdown`. -/
theorem C8_drawdown_amended (cfg : RL.EnvConfig) (close : List ℚ)
    (e : RL.TradingEnv) (actionIdx : ℕ) (target cost reward eq' peak' : ℚ)
    (hdone : e.done = false)
    (hact : cfg.actionSet.get? actionIdx = some target)
    (hn : e.t + 1 < close.length)
    (hcost : cost = if target ≠ e.position then
        pyabs (target - e.position) * (cfg.costsBp / 10000) else 0)
    (hreward : reward = e.position * RL.retAt close (e.t + 1) - cost)
    (heq : eq' = e.equity * (1 + reward))
    (hpeak' : peak' = pymax e.equityPeak eq')
    (hmd0 : 0 ≤ cfg.maxDrawdown) (hmd1 : cfg.maxDrawdown ≤ 1)
    (hpk : 0 < e.equityPeak) :
    (eq' / peak' - 1 = -cfg.maxDrawdown →
      RL.step cfg close e actionIdx =
        .ok (⟨e.t, target, eq', peak', true⟩, reward, true)) ∧
    (eq' / (peak' + 1 / 1000000000000) - 1 > -cfg.maxDrawdown →
      RL.step cfg close e actionIdx =
        .ok (⟨e.t + 1, target, eq', peak',
            decide (close.length - 1 ≤ e.t + 1)⟩,
          reward, decide (close.length - 1 ≤ e.t + 1))) := by
  have hpk' : 0 < peak' := by
    rw [hpeak', pymax_eq]
    exact lt_of_lt_of_le hpk (le_max_left _ _)
  have habs : pyabs cfg.maxDrawdown = cfg.maxDrawdown := by
    rw [pyabs_eq]
    exact abs_of_nonneg hmd0
  rw [step_normal cfg close e actionIdx target hdone hact hn]
  dsimp only
  rw [← hcost, ← hreward, ← heq, ← hpeak']
  constructor
  · intro hbd
    have hratio : eq' / peak' = 1 - cfg.maxDrawdown := by linarith
    have heqv : eq' = peak' * (1 - cfg.maxDrawdown) := by
      field_simp at hratio
      linarith
    have hnn : 0 ≤ eq' := by
      rw [heqv]
      exact mul_nonneg hpk'.le (by linarith)
    have hmono : eq' / (peak' + 1 / 1000000000000) ≤ eq' / peak' :=
      div_le_div_of_nonneg_left hnn hpk' (by linarith)
    rw [if_pos (by rw [habs]; linarith : eq' / (peak' + 1 / 1000000000000) - 1
      ≤ -(pyabs cfg.maxDrawdown))]
  · intro hbd
    rw [if_neg (by rw [habs]; linarith : ¬(eq' / (peak' + 1 / 1000000000000) - 1
      ≤ -(pyabs cfg.maxDrawdown)))]

/-- Witness for C8 amended at the exact boundary: return `-1/5` on equity
`1` with peak `1` and `max_drawdown = 1/5`; the step returns the reward
`-1/5` and sets done. -/
theorem C8_drawdown_amended_witness :
    ddEnvW.done = false ∧
    ddCfg.actionSet.get? 1 = some 1 ∧
    ddEnvW.t + 1 < bdClose.length ∧
    ((4 : ℚ)/5) / 1 - 1 = -ddCfg.maxDrawdown ∧
    RL.step ddCfg bdClose ddEnvW 1 =
      .ok (⟨0, 1, 4/5, 1, true⟩, -(1/5), true) :=
  ⟨rfl, rfl, by norm_num [ddEnvW, bdClose], by norm_num [ddCfg],
    (C8_drawdown_amended ddCfg bdClose ddEnvW 1 1 0 (-(1/5)) (4/5) 1
        rfl rfl (by norm_num [ddEnvW, bdClose])
        (by norm_num [ddEnvW])
        (by norm_num [ddEnvW, RL.retAt, bdClose])
        (by norm_num [ddEnvW])
        (by norm_num [ddEnvW, pymax])
        (by norm_num [ddCfg]) (by norm_num [ddCfg])
        (by norm_num [ddEnvW])).1
      (by norm_num [ddCfg])⟩

/-- C9: calling `TradingEnv.step` in the done state raises
`RuntimeError("Step called on done env")` before touching any state, for
every action index; in the embedding the call returns that error and no
new state. -/
theorem C9_step_on_done_errors (cfg : RL.EnvConfig) (close : List ℚ)
    (e : RL.TradingEnv) (actionIdx : ℕ) (hdone : e.done = true) :
    RL.step cfg close e actionIdx = .error "Step called on done env" := by
  unfold RL.step
  rw [if_pos hdone]

/-- Witness for C9 on a terminated env. -/
theorem C9_step_on_done_errors_witness :
    doneEnvW.done = true ∧
    RL.step ddCfg oneClose doneEnvW 0 = .error "Step called on done env" :=
  ⟨rfl, C9_step_on_done_errors ddCfg oneClose doneEnvW 0 rfl⟩

/-- C10: a step from a non-done state whose next index reaches the end of
the series returns reward `0` with done set, and leaves `t`, position,
equity and the equity peak unchanged — in particular no transaction cost
is applied, even though the computed cost is nonzero when the chosen
action's target differs from the current position. -/
theorem C10_end_of_series_step (cfg : RL.EnvConfig) (close : List ℚ)
    (e : RL.TradingEnv) (actionIdx : ℕ) (target : ℚ)
    (hdone : e.done = false)
    (hact : cfg.actionSet.get? actionIdx = some target)
    (hend : close.length ≤ e.t + 1) :
    RL.step cfg close e actionIdx =
      .ok (⟨e.t, e.position, e.equity, e.equityPeak, true⟩, 0, true) := by
  unfold RL.step
  rw [hdone, if_neg (by simp : ¬(false = true)), hact]
  dsimp only
  rw [if_pos hend]

/-- Witness for C10: a flat env on a one-bar series taking the long action
(target `1` differs from position `0`, so a cost would be computed);
the step returns reward `0`, done, and the unchanged state. -/
theorem C10_end_of_series_step_witness :
    endEnvW.done = false ∧
    ddCfg.actionSet.get? 1 = some 1 ∧
    oneClose.length ≤ endEnvW.t + 1 ∧
    RL.step ddCfg oneClose endEnvW 1 =
      .ok (⟨0, 0, 1, 1, true⟩, 0, true) :=
  ⟨rfl, rfl, by norm_num [oneClose, endEnvW],
    C10_end_of_series_step ddCfg oneClose endEnvW 1 1 rfl rfl
      (by norm_num [oneClose, endEnvW])⟩

end Alpaca


